import Mathlib

/-!
# Verification of the IndexTTS2 subprocess gateway (`src/tts/index-tts2/app.py`)

Shallow embedding of the service: Python values and their truthiness, the
`shlex.quote` sanitizer, `str.format`-style template substitution restricted to
plain keyword replacement fields, the `SubprocessSynthesizer.synthesize`
pipeline with the external process and filesystem modelled as oracles, and the
HTTP endpoint wrapper including `base64.b64encode`.
-/

namespace IndexTTS

/-! ## Python values

The substitution mapping built in `synthesize` holds strings for `text`,
`output`, `reference_audio` and `speaker`, and a Python `int` for `seed`
(`request.seed if request.seed is not None else ""`).  `PyVal` covers exactly
these two cases; `truthy` is Python truthiness and `toStr` is Python `str`. -/

inductive PyVal where
  | pstr (s : String)
  | pint (n : Int)
deriving DecidableEq, Repr

/-- ASCII digit character, `chr(48 + d)`. -/
def digitCh (d : Nat) : Char := Char.ofNat (48 + d)

/-- Decimal digits of a natural number, most significant first (Python
`str` on a non-negative int). -/
def natDecChars (n : Nat) : List Char :=
  if _h : n < 10 then [digitCh n]
  else natDecChars (n / 10) ++ [digitCh (n % 10)]
decreasing_by exact Nat.div_lt_self (by omega) (by omega)

/-- Python `str` on a natural number. -/
def natDec (n : Nat) : String := String.mk (natDecChars n)

/-- Python `str` on an `int`: decimal digits, `-`-prefixed when negative. -/
def intDec (v : Int) : String :=
  if v < 0 then "-" ++ natDec v.natAbs else natDec v.toNat

/-- Python `str(v)`. -/
def PyVal.toStr : PyVal → String
  | .pstr s => s
  | .pint n => intDec n

/-- Python truthiness: a string is truthy iff non-empty, an int iff nonzero. -/
def PyVal.truthy : PyVal → Bool
  | .pstr s => s != ""
  | .pint n => n != 0

/-! ## `shlex.quote`

CPython: return `''` for the empty string; return `s` unchanged when every
character is safe — an ASCII letter, a digit, or one of `_ @ % + = : , .`
slash and hyphen (the complement of the `_find_unsafe` regex); otherwise wrap
in single quotes
with every embedded single quote replaced by the sequence
quote, double-quote, quote, double-quote, quote (`s.replace` on the
one-character pattern, written out character by character below). -/

/-- The non-alphanumeric characters of `shlex.quote`'s safe set. -/
def safeExtra : List Char := ['@', '%', '+', '=', ':', ',', '.', '/', '-', '_']

/-- Membership in `shlex.quote`'s safe set. -/
def isSafeChar (c : Char) : Bool := c.isAlpha || c.isDigit || safeExtra.contains c

/-- Character-level transcription of `s.replace("'", "'\"'\"'")`. -/
def quoteInner : List Char → List Char
  | [] => []
  | c :: rest =>
      if c = '\'' then '\'' :: '"' :: '\'' :: '"' :: '\'' :: quoteInner rest
      else c :: quoteInner rest

/-- `shlex.quote`. -/
def shlexQuote (s : String) : String :=
  if s = "" then "\'\'"
  else if s.data.all isSafeChar then s
  else "\'" ++ String.mk (quoteInner s.data) ++ "\'"

/-- The sanitizer from `_render_command`'s dict comprehension:
`shlex.quote(str(v)) if v else ""`. -/
def sanitizeVal (v : PyVal) : String :=
  if v.truthy then shlexQuote v.toStr else ""

/-! ### Decimal strings are in the safe set -/

theorem digitCh_safe (d : Nat) (h : d < 10) : isSafeChar (digitCh d) = true := by
  interval_cases d <;> decide

theorem natDecChars_safe (n : Nat) : (natDecChars n).all isSafeChar = true := by
  induction n using natDecChars.induct with
  | case1 n h => rw [natDecChars, dif_pos h]; simp [digitCh_safe n h]
  | case2 n h ih =>
      rw [natDecChars, dif_neg h]
      simp only [List.all_append, Bool.and_eq_true]
      exact ⟨ih, by simp [digitCh_safe (n % 10) (Nat.mod_lt n (by omega))]⟩

theorem natDecChars_ne_nil (n : Nat) : natDecChars n ≠ [] := by
  rw [natDecChars]
  by_cases h : n < 10
  · rw [dif_pos h]; simp
  · rw [dif_neg h]; simp

theorem intDec_ne_empty (v : Int) : intDec v ≠ "" := by
  rw [intDec]
  by_cases h : v < 0
  · rw [if_pos h]
    intro hc
    have : ("-" ++ natDec v.natAbs).data = [] := by rw [hc]
    simp [String.data_append, natDec] at this
  · rw [if_neg h]
    intro hc
    have : (natDec v.toNat).data = [] := by rw [hc]
    simp only [natDec] at this
    exact natDecChars_ne_nil v.toNat this

theorem intDec_safe (v : Int) : (intDec v).data.all isSafeChar = true := by
  rw [intDec]
  by_cases h : v < 0
  · rw [if_pos h]
    simp only [String.data_append, List.all_append]
    rw [show ("-" : String).data.all isSafeChar = true from by decide]
    simp [natDec, natDecChars_safe]
  · rw [if_neg h]
    simp [natDec, natDecChars_safe]

/-- `shlex.quote` leaves a non-empty all-safe string unchanged. -/
theorem shlexQuote_safe_id (s : String) (h0 : s ≠ "")
    (hs : s.data.all isSafeChar = true) : shlexQuote s = s := by
  rw [shlexQuote, if_neg h0, if_pos hs]

/-- On a nonzero int the sanitizer returns exactly the decimal string. -/
theorem sanitizeVal_pint (n : Int) (hn : n ≠ 0) :
    sanitizeVal (.pint n) = intDec n := by
  rw [sanitizeVal]
  rw [if_pos (by simp [PyVal.truthy, hn])]
  exact shlexQuote_safe_id _ (intDec_ne_empty n) (intDec_safe n)

/-! ## A POSIX shell word lexer

Model used to state that a quoted value is a single literal shell token.
`lexSM cs mode started acc` scans `cs`; it returns `some w` exactly when the
whole input is one word whose expansion-free literal value is `w`.  Characters
that would split the word (whitespace, control operators), start an expansion
(`$`, backquote) or otherwise carry shell syntax outside quotes make the scan
fail, as does an unterminated quote. -/

/-- The backquote character. -/
def backquote : Char := Char.ofNat 96

/-- Characters with syntactic meaning to the shell outside of quotes:
whitespace, control operators, quoting characters, expansion starters, glob
characters, tilde, comment and history markers. -/
def isShellSpecial (c : Char) : Bool :=
  [' ', '\t', '\n', ';', '&', '|', '<', '>', '(', ')', '$', '\'', '"', '\\',
   '*', '?', '[', ']', '{', '}', '~', '#', '!', backquote].contains c

/-- Characters a backslash escapes inside double quotes. -/
def dqEscapes : List Char := ['"', '\\', '$', backquote]

/-- Lexer modes: unquoted, inside single quotes, inside double quotes. -/
inductive ShMode where
  | norm | insq | indq
deriving DecidableEq

/-- One-word shell scan: `some w` iff the input is exactly one word with
literal value `w`. -/
def lexSM : List Char → ShMode → Bool → List Char → Option String
  | [], .norm, started, acc =>
      if started then some (String.mk acc.reverse) else none
  | [], .insq, _, _ => none
  | [], .indq, _, _ => none
  | c :: rest, .norm, _started, acc =>
      if c = '\'' then lexSM rest .insq true acc
      else if c = '"' then lexSM rest .indq true acc
      else if c = '\\' then
        match rest with
        | [] => none
        | d :: rest2 => lexSM rest2 .norm true (d :: acc)
      else if isShellSpecial c then none
      else lexSM rest .norm true (c :: acc)
  | c :: rest, .insq, started, acc =>
      if c = '\'' then lexSM rest .norm true acc
      else lexSM rest .insq started (c :: acc)
  | c :: rest, .indq, started, acc =>
      if c = '"' then lexSM rest .norm true acc
      else if c = '\\' then
        match rest with
        | [] => none
        | d :: rest2 =>
            if dqEscapes.contains d then lexSM rest2 .indq started (d :: acc)
            else lexSM rest2 .indq started (d :: '\\' :: acc)
      else if c = '$' || c = backquote then none
      else lexSM rest .indq started (c :: acc)

/-- Scan a string as a single shell word. -/
def lexOneWord (s : String) : Option String := lexSM s.data .norm false []

/-! ### Stepping lemmas for the lexer -/

theorem special_not_safe (c : Char) (h : isShellSpecial c = true) :
    isSafeChar c = false := by
  have hm : c ∈ [' ', '\t', '\n', ';', '&', '|', '<', '>', '(', ')', '$', '\'', '"', '\\',
      '*', '?', '[', ']', '{', '}', '~', '#', '!', backquote] := by
    simpa [isShellSpecial] using h
  fin_cases hm <;> decide

theorem safe_not_special (c : Char) (h : isSafeChar c = true) :
    isShellSpecial c = false := by
  cases hsp : isShellSpecial c
  · rfl
  · rw [special_not_safe c hsp] at h
    cases h

theorem lexSM_nil_norm (started : Bool) (acc : List Char) :
    lexSM [] .norm started acc =
      if started then some (String.mk acc.reverse) else none := by
  simp [lexSM]

theorem lexSM_norm_squote (l : List Char) (started : Bool) (acc : List Char) :
    lexSM ('\'' :: l) .norm started acc = lexSM l .insq true acc := by
  rw [lexSM.eq_def]; simp

theorem lexSM_norm_other (c : Char) (l : List Char) (started : Bool) (acc : List Char)
    (h : isSafeChar c = true) :
    lexSM (c :: l) .norm started acc = lexSM l .norm true (c :: acc) := by
  have h1 : c ≠ '\'' := fun hc => absurd h (by rw [hc]; decide)
  have h2 : c ≠ '"' := fun hc => absurd h (by rw [hc]; decide)
  have h3 : c ≠ '\\' := fun hc => absurd h (by rw [hc]; decide)
  rw [lexSM.eq_def]; simp [h1, h2, h3, safe_not_special c h]

theorem lexSM_insq_quote (l : List Char) (started : Bool) (acc : List Char) :
    lexSM ('\'' :: l) .insq started acc = lexSM l .norm true acc := by
  simp [lexSM]

theorem lexSM_insq_other (c : Char) (l : List Char) (started : Bool) (acc : List Char)
    (h : c ≠ '\'') :
    lexSM (c :: l) .insq started acc = lexSM l .insq started (c :: acc) := by
  simp [lexSM, h]

theorem lexSM_norm_dquote (l : List Char) (started : Bool) (acc : List Char) :
    lexSM ('"' :: l) .norm started acc = lexSM l .indq true acc := by
  rw [lexSM.eq_def]; simp

theorem lexSM_indq_dquote (l : List Char) (started : Bool) (acc : List Char) :
    lexSM ('"' :: l) .indq started acc = lexSM l .norm true acc := by
  rw [lexSM.eq_def]; simp

theorem lexSM_indq_squote (l : List Char) (started : Bool) (acc : List Char) :
    lexSM ('\'' :: l) .indq started acc = lexSM l .indq started ('\'' :: acc) := by
  rw [lexSM.eq_def]; simp [backquote]

/-! ### `shlex.quote` produces a single literal token -/

theorem lexSM_safe (cs : List Char) :
    ∀ acc : List Char, cs.all isSafeChar = true →
      lexSM cs .norm true acc = some (String.mk (acc.reverse ++ cs)) := by
  induction cs with
  | nil => intro acc _; simp [lexSM_nil_norm]
  | cons c rest ih =>
      intro acc hall
      rw [List.all_cons, Bool.and_eq_true] at hall
      rw [lexSM_norm_other c rest true acc hall.1, ih (c :: acc) hall.2]
      simp

theorem lexSM_quoted (cs : List Char) :
    ∀ acc : List Char,
      lexSM (quoteInner cs ++ ['\'']) .insq true acc =
        some (String.mk (acc.reverse ++ cs)) := by
  induction cs with
  | nil => intro acc; simp [quoteInner, lexSM_insq_quote, lexSM_nil_norm]
  | cons c rest ih =>
      intro acc
      by_cases hc : c = '\''
      · subst hc
        show lexSM (quoteInner ('\'' :: rest) ++ ['\'']) .insq true acc = _
        rw [show quoteInner ('\'' :: rest) =
              '\'' :: '"' :: '\'' :: '"' :: '\'' :: quoteInner rest from by
            simp [quoteInner]]
        rw [List.cons_append, lexSM_insq_quote,
            List.cons_append, lexSM_norm_dquote,
            List.cons_append, lexSM_indq_squote,
            List.cons_append, lexSM_indq_dquote,
            List.cons_append, lexSM_norm_squote,
            ih ('\'' :: acc)]
        simp
      · show lexSM (quoteInner (c :: rest) ++ ['\'']) .insq true acc = _
        rw [show quoteInner (c :: rest) = c :: quoteInner rest from by
            simp [quoteInner, hc]]
        rw [List.cons_append, lexSM_insq_other c _ true acc hc, ih (c :: acc)]
        simp

/-- `shlex.quote` always yields a string the shell reads as exactly one word,
whose literal (expansion-free) value is the original string. -/
theorem shlexQuote_token (s : String) : lexOneWord (shlexQuote s) = some s := by
  by_cases h0 : s = ""
  · subst h0
    rfl
  · by_cases hsafe : s.data.all isSafeChar
    · rw [show shlexQuote s = s from by rw [shlexQuote, if_neg h0, if_pos hsafe]]
      rw [lexOneWord]
      obtain ⟨cs⟩ := s
      match cs, hsafe with
      | c :: rest, hsafe =>
          rw [List.all_cons, Bool.and_eq_true] at hsafe
          rw [lexSM_norm_other c rest false [] hsafe.1, lexSM_safe rest [c] hsafe.2]
          simp
      | [], _ =>
          exact absurd rfl h0
    · rw [show shlexQuote s = "\'" ++ String.mk (quoteInner s.data) ++ "\'" from by
          rw [shlexQuote, if_neg h0, if_neg hsafe]]
      rw [lexOneWord]
      have hdata : ("\'" ++ String.mk (quoteInner s.data) ++ "\'").data =
          '\'' :: (quoteInner s.data ++ ['\'']) := by
        simp [String.data_append]
      rw [hdata, lexSM_norm_squote, lexSM_quoted s.data []]
      cases s
      simp

/-! ## `str.format` over keyword arguments

`self.template.format(**sanitized)`.  The embedding covers templates whose
replacement fields are plain keyword names — as in the service's default
template and its deployment contract.  `{{` and `}}` are brace escapes; an
unmatched brace, or a field that is not a plain keyword name (empty or
all-digit names select positional arguments, and `.` `[` `]` `!` `:` start
attribute/index/conversion/format-spec syntax), is modelled as `valueError`,
an exception the service does not catch.  A plain keyword name absent from
the mapping raises `KeyError` carrying that name. -/

/-- Failures of `str.format`. -/
inductive FmtError where
  | keyError (key : String)
  | valueError
deriving DecidableEq, Repr

/-- Read a replacement field up to the closing `}`: returns the field text and
the remainder, or `none` when the brace is never closed. -/
def scanField : List Char → Option (List Char × List Char)
  | [] => none
  | c :: rest =>
      if c = '}' then some ([], rest)
      else (scanField rest).map (fun p => (c :: p.1, p.2))

theorem scanField_shrink :
    ∀ (l : List Char) (p : List Char × List Char),
      scanField l = some p → p.2.length < l.length := by
  intro l
  induction l with
  | nil => intro p h; simp [scanField] at h
  | cons c rest ih =>
      intro p h
      simp only [scanField] at h
      by_cases hc : c = '}'
      · rw [if_pos hc] at h
        cases h
        simp
      · rw [if_neg hc] at h
        rcases Option.map_eq_some'.1 h with ⟨q, hq, hpq⟩
        subst hpq
        have := ih q hq
        simp only [List.length_cons]
        omega

/-- Characters that end the plain-name part of a replacement field. -/
def fieldForbidden : List Char := ['.', '[', ']', '!', ':', '{', '}']

/-- A plain keyword argument name: non-empty, not all digits (that would be a
positional index), and free of attribute/index/conversion/spec markers. -/
def isPlainName (cs : List Char) : Bool :=
  !cs.isEmpty && cs.all (fun c => !fieldForbidden.contains c) && !cs.all Char.isDigit

/-- Lookup in an association list read as a Python dict (first match wins). -/
def dictGet {α : Type} (vals : List (String × α)) (k : String) : Option α :=
  (vals.find? (fun p => p.1 == k)).map (fun p => p.2)

/-- The substitution scan of `str.format` over character lists. -/
def formatAux (vals : List (String × String)) : List Char → Except FmtError (List Char)
  | [] => .ok []
  | c :: rest =>
      if c = '{' then
        match rest with
        | [] => .error .valueError
        | d :: rest2 =>
            if d = '{' then (formatAux vals rest2).map (fun t => '{' :: t)
            else
              match hs : scanField (d :: rest2) with
              | none => .error .valueError
              | some (name, rest3) =>
                  if isPlainName name then
                    match dictGet vals (String.mk name) with
                    | none => .error (.keyError (String.mk name))
                    | some v => (formatAux vals rest3).map (fun t => v.data ++ t)
                  else .error .valueError
      else if c = '}' then
        match rest with
        | [] => .error .valueError
        | d :: rest2 =>
            if d = '}' then (formatAux vals rest2).map (fun t => '}' :: t)
            else .error .valueError
      else (formatAux vals rest).map (fun t => c :: t)
termination_by cs => cs.length
decreasing_by
  all_goals simp_wf
  all_goals try omega
  all_goals (have hlt := scanField_shrink _ _ hs; simp at hlt; omega)

/-- The replacement-field names of a template, in order; `none` when the
template is not well-formed under the plain-keyword-field fragment. -/
def scanPlaceholders : List Char → Option (List String)
  | [] => some []
  | c :: rest =>
      if c = '{' then
        match rest with
        | [] => none
        | d :: rest2 =>
            if d = '{' then scanPlaceholders rest2
            else
              match hs : scanField (d :: rest2) with
              | none => none
              | some (name, rest3) =>
                  if isPlainName name then
                    (scanPlaceholders rest3).map (fun ps => String.mk name :: ps)
                  else none
      else if c = '}' then
        match rest with
        | [] => none
        | d :: rest2 => if d = '}' then scanPlaceholders rest2 else none
      else scanPlaceholders rest
termination_by cs => cs.length
decreasing_by
  all_goals simp_wf
  all_goals try omega
  all_goals (have hlt := scanField_shrink _ _ hs; simp at hlt; omega)

/-! ### Unfolding lemmas for the two template scans -/

theorem scanPlaceholders_nil : scanPlaceholders [] = some [] := by
  rw [scanPlaceholders.eq_def]

theorem scanPlaceholders_open_nil : scanPlaceholders ['{'] = none := by
  rw [scanPlaceholders.eq_def]; rfl

theorem scanPlaceholders_open_open (rest2 : List Char) :
    scanPlaceholders ('{' :: '{' :: rest2) = scanPlaceholders rest2 := by
  rw [scanPlaceholders.eq_def]; simp

theorem scanPlaceholders_field_none (d : Char) (rest2 : List Char) (hd : d ≠ '{')
    (hsf : scanField (d :: rest2) = none) :
    scanPlaceholders ('{' :: d :: rest2) = none := by
  rw [scanPlaceholders.eq_def]
  simp only [if_true, if_neg hd]
  split
  · rfl
  · rename_i nm r3 h
    rw [hsf] at h
    cases h

theorem scanPlaceholders_field_some (d : Char) (rest2 name rest3 : List Char)
    (hd : d ≠ '{') (hsf : scanField (d :: rest2) = some (name, rest3)) :
    scanPlaceholders ('{' :: d :: rest2) =
      if isPlainName name then
        (scanPlaceholders rest3).map (fun ps => String.mk name :: ps)
      else none := by
  rw [scanPlaceholders.eq_def]
  simp only [if_true, if_neg hd]
  split
  · rename_i h
    rw [hsf] at h
    cases h
  · rename_i nm r3 h
    rw [hsf] at h
    injection h with h1
    injection h1 with h2 h3
    subst h2; subst h3
    rfl

theorem scanPlaceholders_close_nil : scanPlaceholders ['}'] = none := by
  rw [scanPlaceholders.eq_def]; rfl

theorem scanPlaceholders_close_close (rest2 : List Char) :
    scanPlaceholders ('}' :: '}' :: rest2) = scanPlaceholders rest2 := by
  rw [scanPlaceholders.eq_def]; rfl

theorem scanPlaceholders_close_other (d : Char) (rest2 : List Char) (hd : d ≠ '}') :
    scanPlaceholders ('}' :: d :: rest2) = none := by
  rw [scanPlaceholders.eq_def]
  simp only [show ('}' : Char) ≠ '{' from by decide, if_neg, if_true, if_neg hd]
  rfl

theorem scanPlaceholders_other (c : Char) (rest : List Char)
    (hc1 : c ≠ '{') (hc2 : c ≠ '}') :
    scanPlaceholders (c :: rest) = scanPlaceholders rest := by
  rw [scanPlaceholders.eq_def]
  simp only []
  rw [if_neg hc1, if_neg hc2]

theorem formatAux_nil (vals : List (String × String)) : formatAux vals [] = .ok [] := by
  rw [formatAux.eq_def]

theorem formatAux_open_open (vals : List (String × String)) (rest2 : List Char) :
    formatAux vals ('{' :: '{' :: rest2) =
      (formatAux vals rest2).map (fun t => '{' :: t) := by
  rw [formatAux.eq_def]; simp

theorem formatAux_open_field (vals : List (String × String)) (d : Char)
    (rest2 name rest3 : List Char) (hd : d ≠ '{')
    (hsf : scanField (d :: rest2) = some (name, rest3))
    (hpn : isPlainName name = true) :
    formatAux vals ('{' :: d :: rest2) =
      match dictGet vals (String.mk name) with
      | none => .error (.keyError (String.mk name))
      | some v => (formatAux vals rest3).map (fun t => v.data ++ t) := by
  rw [formatAux.eq_def]
  simp only [if_true, if_neg hd]
  split
  · rename_i h
    rw [hsf] at h
    cases h
  · rename_i nm r3 h
    rw [hsf] at h
    injection h with h1
    injection h1 with h2 h3
    subst h2; subst h3
    rw [if_pos hpn]

theorem formatAux_close_close (vals : List (String × String)) (rest2 : List Char) :
    formatAux vals ('}' :: '}' :: rest2) =
      (formatAux vals rest2).map (fun t => '}' :: t) := by
  rw [formatAux.eq_def]; rfl

theorem formatAux_other (vals : List (String × String)) (c : Char) (rest : List Char)
    (hc1 : c ≠ '{') (hc2 : c ≠ '}') :
    formatAux vals (c :: rest) = (formatAux vals rest).map (fun t => c :: t) := by
  rw [formatAux.eq_def]
  simp only []
  rw [if_neg hc1, if_neg hc2]

/-! ### Missing and present placeholders -/

/-- When the template is well-formed and some referenced placeholder is absent
from the mapping, formatting raises `KeyError` naming an absent placeholder. -/
theorem formatAux_missing :
    ∀ (n : Nat) (t : List Char) (ps : List String) (vals : List (String × String)),
      t.length ≤ n →
      scanPlaceholders t = some ps →
      (∃ p ∈ ps, dictGet vals p = none) →
      ∃ q ∈ ps, dictGet vals q = none ∧
        formatAux vals t = .error (.keyError q) := by
  intro n
  induction n with
  | zero =>
      intro t ps vals hlen hscan hmiss
      have ht : t = [] := List.eq_nil_of_length_eq_zero (by omega)
      subst ht
      rw [scanPlaceholders_nil] at hscan
      injection hscan with h
      subst h
      obtain ⟨p, hp, _⟩ := hmiss
      exact absurd hp (List.not_mem_nil p)
  | succ n ih =>
      intro t ps vals hlen hscan hmiss
      cases t with
      | nil =>
          rw [scanPlaceholders_nil] at hscan
          injection hscan with h
          subst h
          obtain ⟨p, hp, _⟩ := hmiss
          exact absurd hp (List.not_mem_nil p)
      | cons c rest =>
          simp only [List.length_cons] at hlen
          by_cases hc : c = '{'
          · subst hc
            cases rest with
            | nil => rw [scanPlaceholders_open_nil] at hscan; cases hscan
            | cons d rest2 =>
                simp only [List.length_cons] at hlen
                by_cases hd : d = '{'
                · subst hd
                  rw [scanPlaceholders_open_open] at hscan
                  obtain ⟨q, hq, hqn, hfa⟩ :=
                    ih rest2 ps vals (by omega) hscan hmiss
                  refine ⟨q, hq, hqn, ?_⟩
                  rw [formatAux_open_open, hfa]
                  rfl
                · cases hsf : scanField (d :: rest2) with
                  | none =>
                      rw [scanPlaceholders_field_none d rest2 hd hsf] at hscan
                      cases hscan
                  | some pr =>
                      obtain ⟨name, rest3⟩ := pr
                      rw [scanPlaceholders_field_some d rest2 name rest3 hd hsf]
                        at hscan
                      by_cases hpn : isPlainName name
                      · rw [if_pos hpn] at hscan
                        rcases Option.map_eq_some'.1 hscan with ⟨ps2, hps2, hps⟩
                        subst hps
                        cases hdg : dictGet vals (String.mk name) with
                        | none =>
                            refine ⟨String.mk name, List.mem_cons_self _ _, hdg, ?_⟩
                            rw [formatAux_open_field vals d rest2 name rest3 hd hsf hpn,
                              hdg]
                        | some v =>
                            have hmiss2 : ∃ p ∈ ps2, dictGet vals p = none := by
                              obtain ⟨p, hp, hpnone⟩ := hmiss
                              rcases List.mem_cons.1 hp with h | h
                              · subst h
                                rw [hdg] at hpnone
                                cases hpnone
                              · exact ⟨p, h, hpnone⟩
                            have hlen3 : rest3.length ≤ n := by
                              have := scanField_shrink (d :: rest2) (name, rest3) hsf
                              simp only [List.length_cons] at this
                              omega
                            obtain ⟨q, hq, hqn, hfa⟩ :=
                              ih rest3 ps2 vals hlen3 hps2 hmiss2
                            refine ⟨q, List.mem_cons_of_mem _ hq, hqn, ?_⟩
                            rw [formatAux_open_field vals d rest2 name rest3 hd hsf hpn,
                              hdg, hfa]
                            rfl
                      · rw [if_neg hpn] at hscan
                        cases hscan
          · by_cases hc2 : c = '}'
            · subst hc2
              cases rest with
              | nil => rw [scanPlaceholders_close_nil] at hscan; cases hscan
              | cons d rest2 =>
                  simp only [List.length_cons] at hlen
                  by_cases hd : d = '}'
                  · subst hd
                    rw [scanPlaceholders_close_close] at hscan
                    obtain ⟨q, hq, hqn, hfa⟩ :=
                      ih rest2 ps vals (by omega) hscan hmiss
                    refine ⟨q, hq, hqn, ?_⟩
                    rw [formatAux_close_close, hfa]
                    rfl
                  · rw [scanPlaceholders_close_other d rest2 hd] at hscan
                    cases hscan
            · rw [scanPlaceholders_other c rest hc hc2] at hscan
              obtain ⟨q, hq, hqn, hfa⟩ := ih rest ps vals (by omega) hscan hmiss
              refine ⟨q, hq, hqn, ?_⟩
              rw [formatAux_other vals c rest hc hc2, hfa]
              rfl

/-- When the template is well-formed and every referenced placeholder is
present, formatting succeeds. -/
theorem formatAux_total :
    ∀ (n : Nat) (t : List Char) (ps : List String) (vals : List (String × String)),
      t.length ≤ n →
      scanPlaceholders t = some ps →
      (∀ p ∈ ps, (dictGet vals p).isSome = true) →
      ∃ out, formatAux vals t = .ok out := by
  intro n
  induction n with
  | zero =>
      intro t ps vals hlen hscan _
      have ht : t = [] := List.eq_nil_of_length_eq_zero (by omega)
      subst ht
      exact ⟨[], formatAux_nil vals⟩
  | succ n ih =>
      intro t ps vals hlen hscan hall
      cases t with
      | nil => exact ⟨[], formatAux_nil vals⟩
      | cons c rest =>
          simp only [List.length_cons] at hlen
          by_cases hc : c = '{'
          · subst hc
            cases rest with
            | nil => rw [scanPlaceholders_open_nil] at hscan; cases hscan
            | cons d rest2 =>
                simp only [List.length_cons] at hlen
                by_cases hd : d = '{'
                · subst hd
                  rw [scanPlaceholders_open_open] at hscan
                  obtain ⟨out, hout⟩ := ih rest2 ps vals (by omega) hscan hall
                  exact ⟨'{' :: out, by rw [formatAux_open_open, hout]; rfl⟩
                · cases hsf : scanField (d :: rest2) with
                  | none =>
                      rw [scanPlaceholders_field_none d rest2 hd hsf] at hscan
                      cases hscan
                  | some pr =>
                      obtain ⟨name, rest3⟩ := pr
                      rw [scanPlaceholders_field_some d rest2 name rest3 hd hsf]
                        at hscan
                      by_cases hpn : isPlainName name
                      · rw [if_pos hpn] at hscan
                        rcases Option.map_eq_some'.1 hscan with ⟨ps2, hps2, hps⟩
                        subst hps
                        have hsome := hall (String.mk name) (List.mem_cons_self _ _)
                        cases hdg : dictGet vals (String.mk name) with
                        | none => rw [hdg] at hsome; cases hsome
                        | some v =>
                            have hlen3 : rest3.length ≤ n := by
                              have := scanField_shrink (d :: rest2) (name, rest3) hsf
                              simp only [List.length_cons] at this
                              omega
                            obtain ⟨out, hout⟩ := ih rest3 ps2 vals hlen3 hps2
                              (fun p hp => hall p (List.mem_cons_of_mem _ hp))
                            refine ⟨v.data ++ out, ?_⟩
                            rw [formatAux_open_field vals d rest2 name rest3 hd hsf hpn,
                              hdg, hout]
                            rfl
                      · rw [if_neg hpn] at hscan
                        cases hscan
          · by_cases hc2 : c = '}'
            · subst hc2
              cases rest with
              | nil => rw [scanPlaceholders_close_nil] at hscan; cases hscan
              | cons d rest2 =>
                  simp only [List.length_cons] at hlen
                  by_cases hd : d = '}'
                  · subst hd
                    rw [scanPlaceholders_close_close] at hscan
                    obtain ⟨out, hout⟩ := ih rest2 ps vals (by omega) hscan hall
                    exact ⟨'}' :: out, by rw [formatAux_close_close, hout]; rfl⟩
                  · rw [scanPlaceholders_close_other d rest2 hd] at hscan
                    cases hscan
            · rw [scanPlaceholders_other c rest hc hc2] at hscan
              obtain ⟨out, hout⟩ := ih rest ps vals (by omega) hscan hall
              exact ⟨c :: out, by rw [formatAux_other vals c rest hc hc2, hout]; rfl⟩

/-- `template.format(**vals)`. -/
def formatTemplate (template : String) (vals : List (String × String)) :
    Except FmtError String :=
  (formatAux vals template.data).map String.mk

/-- The dict comprehension of `_render_command`, applied entry-wise. -/
def sanitizeAll (values : List (String × PyVal)) : List (String × String) :=
  values.map (fun p => (p.1, sanitizeVal p.2))

/-- Failures of `_render_command`: the caught `KeyError` (re-raised as an
`HTTPException` naming the placeholder) and the uncaught format exception. -/
inductive RenderError where
  | missingPlaceholder (name : String)
  | formatValueError
deriving DecidableEq, Repr

/-- Python `str.strip()`: drop whitespace from both ends. -/
def pyStrip (s : String) : String :=
  String.mk (((s.data.dropWhile Char.isWhitespace).reverse.dropWhile
    Char.isWhitespace).reverse)

/-- `SubprocessSynthesizer._render_command`: sanitize every value, substitute
into the template, and strip the result. -/
def renderCommand (template : String) (values : List (String × PyVal)) :
    Except RenderError String :=
  match formatTemplate template (sanitizeAll values) with
  | .error (.keyError k) => .error (.missingPlaceholder k)
  | .error .valueError => .error .formatValueError
  | .ok cmd => .ok (pyStrip cmd)

/-! ### Lookup lemmas -/

theorem dictGet_nil {α : Type} (k : String) : dictGet ([] : List (String × α)) k = none := rfl

theorem dictGet_cons {α : Type} (k0 : String) (v0 : α) (rest : List (String × α))
    (k : String) :
    dictGet ((k0, v0) :: rest) k = if k0 = k then some v0 else dictGet rest k := by
  by_cases h : k0 = k
  · simp [dictGet, List.find?, h]
  · simp only [dictGet, List.find?]
    rw [show (k0 == k) = false from beq_eq_false_iff_ne.2 h]
    rw [if_neg h]

/-- Sanitization commutes with lookup: the sanitized mapping holds
`sanitizeVal` of whatever the raw mapping holds. -/
theorem dictGet_sanitizeAll (vs : List (String × PyVal)) (k : String) :
    dictGet (sanitizeAll vs) k = (dictGet vs k).map sanitizeVal := by
  induction vs with
  | nil => rfl
  | cons p rest ih =>
      obtain ⟨k0, v0⟩ := p
      show dictGet ((k0, sanitizeVal v0) :: sanitizeAll rest) k = _
      rw [dictGet_cons, dictGet_cons]
      by_cases h : k0 = k
      · rw [if_pos h, if_pos h]
        rfl
      · rw [if_neg h, if_neg h, ih]

theorem renderCommand_of_formatAux_keyError (template : String)
    (values : List (String × PyVal)) (q : String)
    (h : formatAux (sanitizeAll values) template.data = .error (.keyError q)) :
    renderCommand template values = .error (.missingPlaceholder q) := by
  rw [renderCommand, formatTemplate, h]
  rfl

theorem renderCommand_of_formatAux_ok (template : String)
    (values : List (String × PyVal)) (out : List Char)
    (h : formatAux (sanitizeAll values) template.data = .ok out) :
    renderCommand template values = .ok (pyStrip (String.mk out)) := by
  rw [renderCommand, formatTemplate, h]
  rfl

/-! ## The request schema

`TTSRequest` (pydantic): `text` is required with no further constraint,
`reference_audio`, `speaker` and `seed` are optional, `output_format`
defaults to `"wav"`, `extra` defaults to the empty dict.  `RawBody` is the
JSON body with each field present or absent; `validateRequest` is the
pydantic validation step. -/

structure TTSRequest where
  text : String
  reference_audio : Option String
  speaker : Option String
  seed : Option Int
  output_format : String
  extra : List (String × String)
deriving DecidableEq, Repr

/-- An inbound JSON body: every field present or absent. -/
structure RawBody where
  text : Option String
  reference_audio : Option String
  speaker : Option String
  seed : Option Int
  output_format : Option String
  extra : Option (List (String × String))
deriving DecidableEq, Repr

/-- Pydantic validation of the body against `TTSRequest`: `text` is the one
required field (declared `Field(...)`); the rest default.  No field carries a
length or emptiness constraint. -/
def validateRequest (r : RawBody) : Option TTSRequest :=
  match r.text with
  | none => none
  | some t =>
      some { text := t
             reference_audio := r.reference_audio
             speaker := r.speaker
             seed := r.seed
             output_format := r.output_format.getD "wav"
             extra := r.extra.getD [] }

/-! ## The synthesizer -/

/-- Process-wide configuration, read once in `SubprocessSynthesizer.__init__`
from `INDEX_TTS_COMMAND_TEMPLATE` and `INDEX_TTS_WORKDIR`. -/
structure ServiceConfig where
  template : String
  workdir : String
deriving DecidableEq, Repr

/-- The built-in command template used when `INDEX_TTS_COMMAND_TEMPLATE` is
unset. -/
def defaultTemplate : String :=
  "python /models/scripts/infer.py --text {text} --output {output} " ++
  "--reference_audio {reference_audio} --speaker {speaker} --seed {seed}"

/-- The configuration when neither environment variable is set. -/
def defaultConfig : ServiceConfig := { template := defaultTemplate, workdir := "/models" }

/-- The effectful surroundings of one `synthesize` call: the temporary
directory `TemporaryDirectory` allocated, the exit code `subprocess.run`
observes for a command line, and the state of the filesystem at a path once
the process has run (`None` = no such file). -/
structure SynthWorld where
  tmpdir : String
  exitCode : String → Int
  fileAfter : String → Option (List Nat)

/-- `Path(tmpdir) / f"output.{request.output_format}"`. -/
def outputPath (w : SynthWorld) (req : TTSRequest) : String :=
  w.tmpdir ++ "/output." ++ req.output_format

/-- Failures `synthesize` can surface: an `HTTPException(status, detail)`, or
an exception the handler does not catch (a malformed template). -/
inductive SynthFailure where
  | httpError (status : Nat) (detail : String)
  | pyValueError
deriving DecidableEq, Repr

/-- The five built-in substitution values (`template_values` before
`update`): `text`, `output`, `reference_audio` and `speaker` with `or ""`
defaulting, and `seed` kept as a Python `int` when present. -/
def builtinValues (path : String) (req : TTSRequest) : List (String × PyVal) :=
  [("text", .pstr req.text),
   ("output", .pstr path),
   ("reference_audio", .pstr (req.reference_audio.getD "")),
   ("speaker", .pstr (req.speaker.getD "")),
   ("seed", match req.seed with | some n => .pint n | none => .pstr "")]

/-- `template_values.update(request.extra)`: the merged mapping, `extra`
shadowing the built-ins (first match wins in `dictGet`). -/
def templateValues (path : String) (req : TTSRequest) : List (String × PyVal) :=
  req.extra.map (fun p => (p.1, PyVal.pstr p.2)) ++ builtinValues path req

/-- Lookup through the `extra` overlay: an `extra` entry shadows the
built-ins, otherwise the built-ins answer. -/
theorem dictGet_templateValues (path : String) (req : TTSRequest) (k : String) :
    dictGet (templateValues path req) k =
      match dictGet req.extra k with
      | some v => some (PyVal.pstr v)
      | none => dictGet (builtinValues path req) k := by
  rw [templateValues]
  induction req.extra with
  | nil => rfl
  | cons p rest ih =>
      obtain ⟨k0, v0⟩ := p
      show dictGet ((k0, PyVal.pstr v0) ::
        (rest.map (fun p => (p.1, PyVal.pstr p.2)) ++ builtinValues path req)) k = _
      rw [dictGet_cons, dictGet_cons]
      by_cases h : k0 = k
      · rw [if_pos h, if_pos h]
      · rw [if_neg h, if_neg h, ih]

/-- The five built-in names. -/
def builtinNames : List String := ["text", "output", "reference_audio", "speaker", "seed"]

theorem dictGet_builtin_isSome (path : String) (req : TTSRequest) (k : String)
    (hk : k ∈ builtinNames) :
    (dictGet (builtinValues path req) k).isSome = true := by
  simp only [builtinNames, List.mem_cons, List.not_mem_nil, or_false] at hk
  rcases hk with rfl | rfl | rfl | rfl | rfl <;> rfl

theorem dictGet_builtin_seed (path : String) (req : TTSRequest) :
    dictGet (builtinValues path req) "seed" =
      some (match req.seed with | some n => PyVal.pint n | none => PyVal.pstr "") := rfl

theorem dictGet_builtin_output (path : String) (req : TTSRequest) :
    dictGet (builtinValues path req) "output" = some (PyVal.pstr path) := rfl

/-- `SubprocessSynthesizer.synthesize`, instrumented with the list of command
lines handed to `subprocess.run` (so "no process was spawned" is the empty
trace).  Returns the bytes read back from the output path on success. -/
def synthesizeT (cfg : ServiceConfig) (w : SynthWorld) (req : TTSRequest) :
    Except SynthFailure (List Nat) × List String :=
  let path := outputPath w req
  match renderCommand cfg.template (templateValues path req) with
  | .error (.missingPlaceholder name) =>
      (.error (.httpError 500
        ("Missing placeholder \'" ++ name ++ "\' in INDEX_TTS_COMMAND_TEMPLATE.")), [])
  | .error .formatValueError => (.error .pyValueError, [])
  | .ok command =>
      if command = "" then
        (.error (.httpError 500
          "Rendered command is empty. Check INDEX_TTS_COMMAND_TEMPLATE."), [])
      else if w.exitCode command ≠ 0 then
        (.error (.httpError 500
          ("IndexTTS2 command failed (exit code " ++ intDec (w.exitCode command) ++ ").")),
         [command])
      else
        match w.fileAfter path with
        | none =>
            (.error (.httpError 500 ("Expected audio file not found at " ++ path)),
             [command])
        | some bytes => (.ok bytes, [command])

/-! ### Scenario lemmas for `synthesize` -/

theorem synthesizeT_missing (cfg : ServiceConfig) (w : SynthWorld) (req : TTSRequest)
    (name : String)
    (hr : renderCommand cfg.template (templateValues (outputPath w req) req) =
      .error (.missingPlaceholder name)) :
    synthesizeT cfg w req =
      (.error (.httpError 500
        ("Missing placeholder \'" ++ name ++ "\' in INDEX_TTS_COMMAND_TEMPLATE.")), []) := by
  simp only [synthesizeT]
  rw [hr]

theorem synthesizeT_empty (cfg : ServiceConfig) (w : SynthWorld) (req : TTSRequest)
    (hr : renderCommand cfg.template (templateValues (outputPath w req) req) = .ok "") :
    synthesizeT cfg w req =
      (.error (.httpError 500
        "Rendered command is empty. Check INDEX_TTS_COMMAND_TEMPLATE."), []) := by
  simp only [synthesizeT]
  rw [hr]
  rfl

theorem synthesizeT_exitFail (cfg : ServiceConfig) (w : SynthWorld) (req : TTSRequest)
    (cmd : String)
    (hr : renderCommand cfg.template (templateValues (outputPath w req) req) = .ok cmd)
    (hne : cmd ≠ "") (hcode : w.exitCode cmd ≠ 0) :
    synthesizeT cfg w req =
      (.error (.httpError 500
        ("IndexTTS2 command failed (exit code " ++ intDec (w.exitCode cmd) ++ ").")),
       [cmd]) := by
  simp only [synthesizeT]
  rw [hr]
  simp only [if_neg hne, if_pos hcode]

theorem synthesizeT_noFile (cfg : ServiceConfig) (w : SynthWorld) (req : TTSRequest)
    (cmd : String)
    (hr : renderCommand cfg.template (templateValues (outputPath w req) req) = .ok cmd)
    (hne : cmd ≠ "") (hcode : w.exitCode cmd = 0)
    (hfile : w.fileAfter (outputPath w req) = none) :
    synthesizeT cfg w req =
      (.error (.httpError 500
        ("Expected audio file not found at " ++ outputPath w req)), [cmd]) := by
  simp only [synthesizeT]
  rw [hr]
  simp only [if_neg hne]
  rw [if_neg (by simp [hcode]), hfile]

theorem synthesizeT_success (cfg : ServiceConfig) (w : SynthWorld) (req : TTSRequest)
    (cmd : String) (bs : List Nat)
    (hr : renderCommand cfg.template (templateValues (outputPath w req) req) = .ok cmd)
    (hne : cmd ≠ "") (hcode : w.exitCode cmd = 0)
    (hfile : w.fileAfter (outputPath w req) = some bs) :
    synthesizeT cfg w req = (.ok bs, [cmd]) := by
  simp only [synthesizeT]
  rw [hr]
  simp only [if_neg hne]
  rw [if_neg (by simp [hcode]), hfile]

/-! ## `base64.b64encode` and the endpoint -/

/-- The standard base64 alphabet. -/
def b64Alphabet : List Char :=
  "ABCDEFGHIJKLMNOPQRSTUVWXYZabcdefghijklmnopqrstuvwxyz0123456789+/".data

/-- The alphabet character for a 6-bit group. -/
def sixBitChar (n : Nat) : Char := b64Alphabet.getD n 'A'

/-- Position of a character in the base64 alphabet. -/
def b64Index (c : Char) : Nat := b64Alphabet.indexOf c

/-- `base64.b64encode` on a byte list: 3-byte groups to 4 characters, with
`=` padding for a 1- or 2-byte tail. -/
def b64encodeBytes : List Nat → List Char
  | [] => []
  | [b1] => [sixBitChar (b1 / 4), sixBitChar (b1 % 4 * 16), '=', '=']
  | [b1, b2] =>
      [sixBitChar (b1 / 4), sixBitChar (b1 % 4 * 16 + b2 / 16),
       sixBitChar (b2 % 16 * 4), '=']
  | b1 :: b2 :: b3 :: rest =>
      sixBitChar (b1 / 4) :: sixBitChar (b1 % 4 * 16 + b2 / 16) ::
      sixBitChar (b2 % 16 * 4 + b3 / 64) :: sixBitChar (b3 % 64) ::
      b64encodeBytes rest

/-- Base64 decoding, the client-side inverse used to state that
`audio_base64` decodes to the file's bytes. -/
def b64decodeChars : List Char → List Nat
  | c1 :: c2 :: c3 :: c4 :: rest =>
      if c3 = '=' then [b64Index c1 * 4 + b64Index c2 / 16]
      else if c4 = '=' then
        [b64Index c1 * 4 + b64Index c2 / 16,
         b64Index c2 % 16 * 16 + b64Index c3 / 4]
      else
        (b64Index c1 * 4 + b64Index c2 / 16) ::
        (b64Index c2 % 16 * 16 + b64Index c3 / 4) ::
        (b64Index c3 % 4 * 64 + b64Index c4) ::
        b64decodeChars rest
  | _ => []

/-! ### Base64 round trip -/

theorem b64Index_sixBitChar : ∀ n : Fin 64, b64Index (sixBitChar n.1) = n.1 := by decide

theorem sixBitChar_ne_pad : ∀ n : Fin 64, sixBitChar n.1 ≠ '=' := by decide

/-- Decoding inverts encoding on byte lists. -/
theorem b64_roundtrip :
    ∀ bs : List Nat, (∀ b ∈ bs, b < 256) →
      b64decodeChars (b64encodeBytes bs) = bs := by
  intro bs
  induction bs using b64encodeBytes.induct with
  | case1 => intro _; rfl
  | case2 b1 =>
      intro hb
      have h1 : b1 < 256 := hb b1 (by simp)
      simp only [b64encodeBytes, b64decodeChars]
      rw [if_pos trivial]
      rw [b64Index_sixBitChar ⟨b1 / 4, by omega⟩, b64Index_sixBitChar ⟨b1 % 4 * 16, by omega⟩]
      have : b1 / 4 * 4 + b1 % 4 * 16 / 16 = b1 := by omega
      rw [this]
  | case3 b1 b2 =>
      intro hb
      have h1 : b1 < 256 := hb b1 (by simp)
      have h2 : b2 < 256 := hb b2 (by simp)
      simp only [b64encodeBytes, b64decodeChars]
      rw [if_neg (sixBitChar_ne_pad ⟨b2 % 16 * 4, by omega⟩), if_pos trivial]
      rw [b64Index_sixBitChar ⟨b1 / 4, by omega⟩,
        b64Index_sixBitChar ⟨b1 % 4 * 16 + b2 / 16, by omega⟩,
        b64Index_sixBitChar ⟨b2 % 16 * 4, by omega⟩]
      have e1 : b1 / 4 * 4 + (b1 % 4 * 16 + b2 / 16) / 16 = b1 := by omega
      have e2 : (b1 % 4 * 16 + b2 / 16) % 16 * 16 + b2 % 16 * 4 / 4 = b2 := by omega
      rw [e1, e2]
  | case4 b1 b2 b3 rest ih =>
      intro hb
      have h1 : b1 < 256 := hb b1 (by simp)
      have h2 : b2 < 256 := hb b2 (by simp)
      have h3 : b3 < 256 := hb b3 (by simp)
      simp only [b64encodeBytes, b64decodeChars]
      rw [if_neg (sixBitChar_ne_pad ⟨b2 % 16 * 4 + b3 / 64, by omega⟩),
        if_neg (sixBitChar_ne_pad ⟨b3 % 64, by omega⟩)]
      rw [b64Index_sixBitChar ⟨b1 / 4, by omega⟩,
        b64Index_sixBitChar ⟨b1 % 4 * 16 + b2 / 16, by omega⟩,
        b64Index_sixBitChar ⟨b2 % 16 * 4 + b3 / 64, by omega⟩,
        b64Index_sixBitChar ⟨b3 % 64, by omega⟩]
      have e1 : b1 / 4 * 4 + (b1 % 4 * 16 + b2 / 16) / 16 = b1 := by omega
      have e2 : (b1 % 4 * 16 + b2 / 16) % 16 * 16 + (b2 % 16 * 4 + b3 / 64) / 4 = b2 := by
        omega
      have e3 : (b2 % 16 * 4 + b3 / 64) % 4 * 64 + b3 % 64 = b3 := by omega
      rw [e1, e2, e3, ih (fun b hbm => hb b (by simp [hbm]))]

/-- The JSON body the `/synthesize` endpoint returns on success. -/
structure SynthResponse where
  audio_base64 : String
  format : String
  bytes : Nat
deriving DecidableEq, Repr

/-- The `/synthesize` endpoint handler around `synthesize`: encode the audio
bytes, echo the request's `output_format`, report the byte count. -/
def synthesizeEndpoint (cfg : ServiceConfig) (w : SynthWorld) (req : TTSRequest) :
    Except SynthFailure SynthResponse × List String :=
  match synthesizeT cfg w req with
  | (.error e, tr) => (.error e, tr)
  | (.ok audioBytes, tr) =>
      (.ok { audio_base64 := String.mk (b64encodeBytes audioBytes)
             format := req.output_format
             bytes := audioBytes.length }, tr)

/-- The HTTP status FastAPI sends for a handler outcome: 200 for a normal
return, the `HTTPException`'s status otherwise, 500 for an uncaught
exception. -/
def httpStatus : Except SynthFailure SynthResponse → Nat
  | .ok _ => 200
  | .error (.httpError s _) => s
  | .error .pyValueError => 500

/-- Outcome of `POST /synthesize` on a raw JSON body: rejected by validation
(the handler never runs), or the handler's response. -/
inductive HTTPOutcome where
  | validationRejected
  | responded (status : Nat) (body : Except SynthFailure SynthResponse)
deriving Repr

/-- `POST /synthesize`: validate the body, then run the handler. -/
def handleSynthesizePost (cfg : ServiceConfig) (w : SynthWorld) (r : RawBody) :
    HTTPOutcome :=
  match validateRequest r with
  | none => .validationRejected
  | some req =>
      .responded (httpStatus (synthesizeEndpoint cfg w req).1)
        (synthesizeEndpoint cfg w req).1

/-! ## The claims -/

/-- A one-request world for concrete scenarios: a fixed temporary directory, a
fixed exit code for any command, and fixed output-file contents. -/
def demoWorld (code : Int) (contents : Option (List Nat)) : SynthWorld :=
  { tmpdir := "/tmp/req", exitCode := fun _ => code, fileAfter := fun _ => contents }

/-- **C1.** For every substitution mapping passed to `_render_command`, every
non-empty (Python-truthy) value is converted to its string form and
shell-quoted so that it reads as one literal shell token in the rendered
command, while every empty/absent (Python-falsy) value is substituted as the
bare empty string — not as the escaped empty-quote token `shlexQuote ""`. -/
theorem C1_sanitization (values : List (String × PyVal)) (k : String) (v : PyVal)
    (hmem : (k, v) ∈ values) :
    (k, sanitizeVal v) ∈ sanitizeAll values ∧
    (v.truthy = true →
      sanitizeVal v = shlexQuote v.toStr ∧
      lexOneWord (sanitizeVal v) = some v.toStr) ∧
    (v.truthy = false →
      sanitizeVal v = "" ∧ sanitizeVal v ≠ shlexQuote "") := by
  refine ⟨List.mem_map_of_mem _ hmem, ?_, ?_⟩
  · intro ht
    rw [sanitizeVal, if_pos ht]
    exact ⟨rfl, shlexQuote_token _⟩
  · intro hf
    rw [sanitizeVal, if_neg (by simp [hf])]
    exact ⟨rfl, by decide⟩

/-- Witness for C1 at the mapping of a request whose text holds a space and a
shell metacharacter. -/
theorem C1_sanitization_witness :
    ("text", sanitizeVal (PyVal.pstr "a b;rm")) ∈
      sanitizeAll [("text", PyVal.pstr "a b;rm")] ∧
    (PyVal.truthy (PyVal.pstr "a b;rm") = true →
      sanitizeVal (PyVal.pstr "a b;rm") = shlexQuote (PyVal.toStr (PyVal.pstr "a b;rm")) ∧
      lexOneWord (sanitizeVal (PyVal.pstr "a b;rm")) =
        some (PyVal.toStr (PyVal.pstr "a b;rm"))) ∧
    (PyVal.truthy (PyVal.pstr "a b;rm") = false →
      sanitizeVal (PyVal.pstr "a b;rm") = "" ∧
      sanitizeVal (PyVal.pstr "a b;rm") ≠ shlexQuote "") :=
  C1_sanitization [("text", PyVal.pstr "a b;rm")] "text" (PyVal.pstr "a b;rm")
    (by decide)

/-- **C2.** For every request whose (well-formed) template references a
placeholder present neither in the five built-ins nor in `extra`, `synthesize`
fails with the placeholder-naming `HTTPException` and spawns no external
process (empty command trace).  When several referenced placeholders are
absent, the one named is the first the left-to-right format scan meets; the
theorem exhibits it together with the facts that it is referenced and absent. -/
theorem C2_missing_placeholder (cfg : ServiceConfig) (w : SynthWorld)
    (req : TTSRequest) (ps : List String) (p : String)
    (hscan : scanPlaceholders cfg.template.data = some ps)
    (hp : p ∈ ps)
    (habsent : dictGet (templateValues (outputPath w req) req) p = none) :
    ∃ q ∈ ps, dictGet (templateValues (outputPath w req) req) q = none ∧
      synthesizeT cfg w req =
        (.error (.httpError 500
          ("Missing placeholder \'" ++ q ++ "\' in INDEX_TTS_COMMAND_TEMPLATE.")), []) := by
  have hs : dictGet (sanitizeAll (templateValues (outputPath w req) req)) p = none := by
    rw [dictGet_sanitizeAll, habsent]
    rfl
  obtain ⟨q, hq, hqn, hfa⟩ := formatAux_missing cfg.template.data.length
    cfg.template.data ps (sanitizeAll (templateValues (outputPath w req) req))
    le_rfl hscan ⟨p, hp, hs⟩
  have hqraw : dictGet (templateValues (outputPath w req) req) q = none := by
    rw [dictGet_sanitizeAll] at hqn
    exact Option.map_eq_none'.1 hqn
  exact ⟨q, hq, hqraw,
    synthesizeT_missing cfg w req q
      (renderCommand_of_formatAux_keyError cfg.template _ q hfa)⟩

/-- Witness for C2: a template referencing `{nope}` on a request with empty
`extra`. -/
theorem C2_missing_placeholder_witness :
    ∃ q ∈ ["nope"],
      dictGet (templateValues
        (outputPath (demoWorld 0 none) ⟨"hi", none, none, none, "wav", []⟩)
        ⟨"hi", none, none, none, "wav", []⟩) q = none ∧
      synthesizeT ⟨"{nope}", "/models"⟩ (demoWorld 0 none)
          ⟨"hi", none, none, none, "wav", []⟩ =
        (.error (.httpError 500
          ("Missing placeholder \'" ++ q ++ "\' in INDEX_TTS_COMMAND_TEMPLATE.")), []) :=
  C2_missing_placeholder ⟨"{nope}", "/models"⟩ (demoWorld 0 none)
    ⟨"hi", none, none, none, "wav", []⟩ ["nope"] "nope"
    (by simp [scanPlaceholders, scanField, isPlainName, fieldForbidden, String.data])
    (by decide)
    (by decide)

/-- **C3.** For every request where the external process exits with a non-zero
status `N`, `synthesize` fails with the `HTTPException` whose detail carries
`N` in decimal, and no bytes are returned (the result is this error); exactly
the one failing command was spawned. -/
theorem C3_nonzero_exit (cfg : ServiceConfig) (w : SynthWorld) (req : TTSRequest)
    (cmd : String) (N : Int)
    (hr : renderCommand cfg.template (templateValues (outputPath w req) req) = .ok cmd)
    (hne : cmd ≠ "") (hcode : w.exitCode cmd = N) (hN : N ≠ 0) :
    synthesizeT cfg w req =
      (.error (.httpError 500
        ("IndexTTS2 command failed (exit code " ++ intDec N ++ ").")), [cmd]) := by
  have h := synthesizeT_exitFail cfg w req cmd hr hne (by rw [hcode]; exact hN)
  rw [hcode] at h
  exact h

/-- Witness for C3: a stub command exiting with code 2. -/
theorem C3_nonzero_exit_witness :
    synthesizeT ⟨"run {text}", "/models"⟩ (demoWorld 2 none)
        ⟨"hi", none, none, none, "wav", []⟩ =
      (.error (.httpError 500
        ("IndexTTS2 command failed (exit code " ++ intDec 2 ++ ").")), ["run hi"]) :=
  C3_nonzero_exit ⟨"run {text}", "/models"⟩ (demoWorld 2 none)
    ⟨"hi", none, none, none, "wav", []⟩ "run hi" 2
    (by simp [renderCommand, formatTemplate, formatAux, scanField, isPlainName,
      fieldForbidden, dictGet, sanitizeAll, templateValues, builtinValues, sanitizeVal,
      PyVal.truthy, PyVal.toStr, shlexQuote, isSafeChar, safeExtra, quoteInner,
      Except.map, pyStrip, outputPath, demoWorld])
    (by decide) rfl (by decide)

/-- **C4.** For every request where the process exits 0 but the computed
output file `output.<output_format>` inside the per-request temporary
directory does not exist, `synthesize` fails with the `HTTPException` carrying
that expected path, and no bytes are returned (the result is this error). -/
theorem C4_output_missing (cfg : ServiceConfig) (w : SynthWorld) (req : TTSRequest)
    (cmd : String)
    (hr : renderCommand cfg.template (templateValues (outputPath w req) req) = .ok cmd)
    (hne : cmd ≠ "") (hcode : w.exitCode cmd = 0)
    (hfile : w.fileAfter (outputPath w req) = none) :
    synthesizeT cfg w req =
      (.error (.httpError 500
        ("Expected audio file not found at " ++ outputPath w req)), [cmd]) :=
  synthesizeT_noFile cfg w req cmd hr hne hcode hfile

/-- Witness for C4: the stub exits 0 but writes nothing. -/
theorem C4_output_missing_witness :
    synthesizeT ⟨"run {text}", "/models"⟩ (demoWorld 0 none)
        ⟨"hi", none, none, none, "wav", []⟩ =
      (.error (.httpError 500
        ("Expected audio file not found at " ++
          outputPath (demoWorld 0 none) ⟨"hi", none, none, none, "wav", []⟩)),
       ["run hi"]) :=
  C4_output_missing ⟨"run {text}", "/models"⟩ (demoWorld 0 none)
    ⟨"hi", none, none, none, "wav", []⟩ "run hi"
    (by simp [renderCommand, formatTemplate, formatAux, scanField, isPlainName,
      fieldForbidden, dictGet, sanitizeAll, templateValues, builtinValues, sanitizeVal,
      PyVal.truthy, PyVal.toStr, shlexQuote, isSafeChar, safeExtra, quoteInner,
      Except.map, pyStrip, outputPath, demoWorld])
    (by decide) rfl rfl

/-- **C5.** For every successful synthesis the HTTP response is `200` with a
JSON body whose `audio_base64` is the base64 encoding of exactly the bytes
read from the output file, whose `bytes` is their length, and whose `format`
echoes the request's `output_format`; decoding `audio_base64` returns exactly
those bytes. -/
theorem C5_success_response (cfg : ServiceConfig) (w : SynthWorld) (req : TTSRequest)
    (bs : List Nat)
    (hok : (synthesizeT cfg w req).1 = .ok bs)
    (hbytes : ∀ b ∈ bs, b < 256) :
    httpStatus (synthesizeEndpoint cfg w req).1 = 200 ∧
    (synthesizeEndpoint cfg w req).1 =
      .ok { audio_base64 := String.mk (b64encodeBytes bs)
            format := req.output_format
            bytes := bs.length } ∧
    b64decodeChars (String.mk (b64encodeBytes bs)).data = bs := by
  rcases hsyn : synthesizeT cfg w req with ⟨res, tr⟩
  rw [hsyn] at hok
  simp only at hok
  subst hok
  refine ⟨?_, ?_, b64_roundtrip bs hbytes⟩
  · simp [synthesizeEndpoint, hsyn, httpStatus]
  · simp [synthesizeEndpoint, hsyn]

/-- Witness for C5: the end-to-end scenario writing the four bytes
`[1, 2, 3, 4]`. -/
theorem C5_success_response_witness :
    httpStatus (synthesizeEndpoint ⟨"run {text}", "/models"⟩
      (demoWorld 0 (some [1, 2, 3, 4])) ⟨"hello", none, none, none, "wav", []⟩).1 = 200 ∧
    (synthesizeEndpoint ⟨"run {text}", "/models"⟩ (demoWorld 0 (some [1, 2, 3, 4]))
        ⟨"hello", none, none, none, "wav", []⟩).1 =
      .ok { audio_base64 := String.mk (b64encodeBytes [1, 2, 3, 4])
            format := "wav"
            bytes := [1, 2, 3, 4].length } ∧
    b64decodeChars (String.mk (b64encodeBytes [1, 2, 3, 4])).data = [1, 2, 3, 4] :=
  C5_success_response ⟨"run {text}", "/models"⟩ (demoWorld 0 (some [1, 2, 3, 4]))
    ⟨"hello", none, none, none, "wav", []⟩ [1, 2, 3, 4]
    (by simp [synthesizeT, renderCommand, formatTemplate, formatAux, scanField,
      isPlainName, fieldForbidden, dictGet, sanitizeAll, templateValues, builtinValues,
      sanitizeVal, PyVal.truthy, PyVal.toStr, shlexQuote, isSafeChar, safeExtra,
      quoteInner, Except.map, pyStrip, outputPath, demoWorld])
    (by decide)

/-- **C9.** For every request whose rendered command strips to the empty
string, `synthesize` fails with the empty-command `HTTPException` and no
external process is executed (empty command trace). -/
theorem C9_empty_command (cfg : ServiceConfig) (w : SynthWorld) (req : TTSRequest)
    (hr : renderCommand cfg.template (templateValues (outputPath w req) req) = .ok "") :
    synthesizeT cfg w req =
      (.error (.httpError 500
        "Rendered command is empty. Check INDEX_TTS_COMMAND_TEMPLATE."), []) :=
  synthesizeT_empty cfg w req hr

/-- Witness for C9: the empty template renders to the empty command. -/
theorem C9_empty_command_witness :
    synthesizeT ⟨"", "/models"⟩ (demoWorld 0 none)
        ⟨"hi", none, none, none, "wav", []⟩ =
      (.error (.httpError 500
        "Rendered command is empty. Check INDEX_TTS_COMMAND_TEMPLATE."), []) :=
  C9_empty_command ⟨"", "/models"⟩ (demoWorld 0 none)
    ⟨"hi", none, none, none, "wav", []⟩
    (renderCommand_of_formatAux_ok "" _ [] (formatAux_nil _))

/-- **C10.** For every request whose `extra` overrides `output` with another
path, the override reaches only the substitution mapping the command is
rendered from; after a zero exit the service still checks, reads and returns
the file at the originally computed temporary path, so the request yields the
missing-output error unless the process also wrote that original path. -/
theorem C10_output_override (cfg : ServiceConfig) (w : SynthWorld) (req : TTSRequest)
    (p2 cmd : String)
    (hov : dictGet req.extra "output" = some p2)
    (hdiff : p2 ≠ outputPath w req)
    (hr : renderCommand cfg.template (templateValues (outputPath w req) req) = .ok cmd)
    (hne : cmd ≠ "") (hcode : w.exitCode cmd = 0) :
    dictGet (templateValues (outputPath w req) req) "output" = some (PyVal.pstr p2) ∧
    (w.fileAfter (outputPath w req) = none →
      synthesizeT cfg w req =
        (.error (.httpError 500
          ("Expected audio file not found at " ++ outputPath w req)), [cmd])) ∧
    (∀ bs, w.fileAfter (outputPath w req) = some bs →
      synthesizeT cfg w req = (.ok bs, [cmd])) := by
  refine ⟨?_, fun hf => synthesizeT_noFile cfg w req cmd hr hne hcode hf,
    fun bs hf => synthesizeT_success cfg w req cmd bs hr hne hcode hf⟩
  rw [dictGet_templateValues, hov]

/-- Witness for C10: `extra` points `output` at another path; the process
exits 0 without writing the original path. -/
theorem C10_output_override_witness :
    dictGet (templateValues
        (outputPath (demoWorld 0 none) ⟨"hi", none, none, none, "wav",
          [("output", "/elsewhere.wav")]⟩)
        ⟨"hi", none, none, none, "wav", [("output", "/elsewhere.wav")]⟩) "output" =
      some (PyVal.pstr "/elsewhere.wav") ∧
    ((demoWorld 0 none).fileAfter (outputPath (demoWorld 0 none)
        ⟨"hi", none, none, none, "wav", [("output", "/elsewhere.wav")]⟩) = none →
      synthesizeT ⟨"run {output}", "/models"⟩ (demoWorld 0 none)
          ⟨"hi", none, none, none, "wav", [("output", "/elsewhere.wav")]⟩ =
        (.error (.httpError 500
          ("Expected audio file not found at " ++ outputPath (demoWorld 0 none)
            ⟨"hi", none, none, none, "wav", [("output", "/elsewhere.wav")]⟩)),
         ["run /elsewhere.wav"])) ∧
    (∀ bs, (demoWorld 0 none).fileAfter (outputPath (demoWorld 0 none)
        ⟨"hi", none, none, none, "wav", [("output", "/elsewhere.wav")]⟩) = some bs →
      synthesizeT ⟨"run {output}", "/models"⟩ (demoWorld 0 none)
          ⟨"hi", none, none, none, "wav", [("output", "/elsewhere.wav")]⟩ =
        (.ok bs, ["run /elsewhere.wav"])) :=
  C10_output_override ⟨"run {output}", "/models"⟩ (demoWorld 0 none)
    ⟨"hi", none, none, none, "wav", [("output", "/elsewhere.wav")]⟩
    "/elsewhere.wav" "run /elsewhere.wav"
    rfl (by decide)
    (by simp [renderCommand, formatTemplate, formatAux, scanField, isPlainName,
      fieldForbidden, dictGet, sanitizeAll, templateValues, builtinValues, sanitizeVal,
      PyVal.truthy, PyVal.toStr, shlexQuote, isSafeChar, safeExtra, quoteInner,
      Except.map, pyStrip, outputPath, demoWorld])
    (by decide) rfl

/-- A request carrying the seed 0. -/
def seedZeroReq : TTSRequest :=
  { text := "hi", reference_audio := none, speaker := none, seed := some 0,
    output_format := "wav", extra := [] }

/-- **C6 counterexample.** With `seed = 0` present, the built-in mapping holds
the Python int `0`, whose substitution value is the empty string, not the
decimal form `"0"` claimed: `request.seed if request.seed is not None else ""`
keeps `0`, but the sanitizer's truthiness test `if v` drops it. -/
theorem C6_seed_zero_cex :
    dictGet (builtinValues "/tmp/req/output.wav" seedZeroReq) "seed" =
      some (PyVal.pint 0) ∧
    sanitizeVal (PyVal.pint 0) = "" ∧
    intDec 0 = "0" ∧
    sanitizeVal (PyVal.pint 0) ≠ intDec 0 := by
  have h0 : intDec 0 = "0" := by
    rw [intDec, if_neg (by omega)]
    rw [show ((0 : Int).toNat) = 0 from rfl, natDec, natDecChars]
    rfl
  refine ⟨rfl, rfl, h0, ?_⟩
  rw [h0]
  decide

/-- **C6 (amended).** The substitution value for the `seed` placeholder is the
seed's decimal string form whenever the seed is present and nonzero; it is the
empty string when the seed is absent or zero. -/
theorem C6_seed_substitution (path : String) (req : TTSRequest) :
    ∃ v, dictGet (builtinValues path req) "seed" = some v ∧
      sanitizeVal v = (match req.seed with
        | some n => if n = 0 then "" else intDec n
        | none => "") := by
  refine ⟨_, dictGet_builtin_seed path req, ?_⟩
  cases req.seed with
  | none => rfl
  | some n =>
      show sanitizeVal (PyVal.pint n) = if n = 0 then "" else intDec n
      by_cases hn : n = 0
      · subst hn
        rfl
      · rw [if_neg hn, sanitizeVal_pint n hn]

/-- A JSON body whose `text` is present but empty. -/
def emptyTextBody : RawBody :=
  { text := some "", reference_audio := none, speaker := none, seed := none,
    output_format := none, extra := none }

/-- A JSON body with no `text` field. -/
def noTextBody : RawBody :=
  { text := none, reference_audio := none, speaker := none, seed := none,
    output_format := none, extra := none }

/-- **C7 counterexample.** A body whose `text` is the empty string passes
validation (`text: str = Field(...)` carries no emptiness constraint) and
reaches the handler, contradicting "missing or empty is rejected". -/
theorem C7_empty_text_accepted_cex :
    validateRequest emptyTextBody =
      some { text := "", reference_audio := none, speaker := none, seed := none,
             output_format := "wav", extra := [] } ∧
    handleSynthesizePost defaultConfig (demoWorld 0 none) emptyTextBody ≠
      .validationRejected := by
  refine ⟨rfl, ?_⟩
  intro h
  simp only [handleSynthesizePost, emptyTextBody, validateRequest] at h
  cases h

/-- **C7 (amended).** `text` is the one required field: a body without it is
rejected by validation and never reaches the handler; a body with `text`
present — the empty string included — is accepted, with the declared defaults
for the remaining fields. -/
theorem C7_text_required (cfg : ServiceConfig) (w : SynthWorld) (r : RawBody) :
    (r.text = none → validateRequest r = none ∧
      handleSynthesizePost cfg w r = .validationRejected) ∧
    (∀ t, r.text = some t →
      validateRequest r =
        some { text := t, reference_audio := r.reference_audio, speaker := r.speaker,
               seed := r.seed, output_format := r.output_format.getD "wav",
               extra := r.extra.getD [] }) := by
  constructor
  · intro h
    have hv : validateRequest r = none := by
      simp only [validateRequest, h]
    exact ⟨hv, by simp only [handleSynthesizePost, hv]⟩
  · intro t ht
    simp only [validateRequest, ht]

/-- Witness for C7 (amended) at the body with no `text` field. -/
theorem C7_text_required_witness :
    validateRequest noTextBody = none ∧
    handleSynthesizePost defaultConfig (demoWorld 0 none) noTextBody =
      .validationRejected :=
  (C7_text_required defaultConfig (demoWorld 0 none) noTextBody).1 rfl

/-- **C8.** For every request with empty `extra` and a (well-formed) template
whose placeholders are drawn from the five built-in names, rendering succeeds:
the missing-placeholder branch is unreachable. -/
theorem C8_builtins_never_missing (cfg : ServiceConfig) (w : SynthWorld)
    (req : TTSRequest) (ps : List String)
    (hscan : scanPlaceholders cfg.template.data = some ps)
    (hsub : ∀ p ∈ ps, p ∈ builtinNames)
    (hextra : req.extra = []) :
    ∃ cmd, renderCommand cfg.template (templateValues (outputPath w req) req) =
      .ok cmd := by
  have hall : ∀ p ∈ ps,
      (dictGet (sanitizeAll (templateValues (outputPath w req) req)) p).isSome
        = true := by
    intro p hp
    rw [dictGet_sanitizeAll, dictGet_templateValues, hextra, dictGet_nil]
    simp only []
    have hb := dictGet_builtin_isSome (outputPath w req) req p (hsub p hp)
    cases hdg : dictGet (builtinValues (outputPath w req) req) p with
    | none => rw [hdg] at hb; cases hb
    | some v => rfl
  obtain ⟨out, hout⟩ := formatAux_total cfg.template.data.length cfg.template.data
    ps (sanitizeAll (templateValues (outputPath w req) req)) le_rfl hscan hall
  exact ⟨_, renderCommand_of_formatAux_ok cfg.template _ out hout⟩

/-- Witness for C8 at a template using `{text}` and `{seed}` only. -/
theorem C8_builtins_never_missing_witness :
    ∃ cmd, renderCommand "{text} {seed}"
      (templateValues (outputPath (demoWorld 0 none)
        ⟨"hi", none, none, none, "wav", []⟩) ⟨"hi", none, none, none, "wav", []⟩) =
      .ok cmd :=
  C8_builtins_never_missing ⟨"{text} {seed}", "/models"⟩ (demoWorld 0 none)
    ⟨"hi", none, none, none, "wav", []⟩ ["text", "seed"]
    (by simp [scanPlaceholders, scanField, isPlainName, fieldForbidden, String.data])
    (by decide) rfl

end IndexTTS
